import Mathlib

/-!
Verification development for the `traced` reactive dependency-graph engine
(`traced.py`).  The engine is shallowly embedded as a state-passing
interpreter:

* `VertexData` mirrors `TraceableVertex` (value, timestamps, dependency
  keys, override status, subscriber callbacks); vertices live in a heap
  (`State.heap`) and are referred to by index, which models Python object
  identity (the code compares vertices by identity on the evaluation
  stack and shares vertex objects between a graph and its children).
* `GraphData` mirrors `Graph` (parent link, evaluation stack, vertex
  table); graphs live in `State.graphs`.  The process-global
  `Graph.active_stack` is `State.active_stack`.  Stacks are stored with
  the head of the list as the top (Python appends at the end and
  inspects `[-1]`; the orientation is reversed but the discipline is
  identical).
* `time.monotonic()` is modelled by a strictly increasing counter
  (`State.clock`); timestamps are `Option Nat` with `none` for Python's
  `None`.
* Cell expressions (the bodies of `@Cell` functions) are embedded as the
  small expression language `PExpr`; a `Cell` whose `evaluate` is not
  callable is `CellExpr.constV`.  Cell objects are identified by a
  numeric id (modelling `hash(cell)`), with definitions registered in
  `State.cells`; `hash(traceable)` is a numeric traceable id.  Keys
  `(hash(traceable), hash(cell))` are pairs of these ids (hashing is
  assumed injective, as it is for the id-based default hashes).
* Notification callbacks are identified by numeric ids; invoking a set
  of callbacks is modelled by appending one `NotifyEvent` per distinct
  callback to `State.events` (callbacks are observers; the payload and
  the state at emission time are recorded faithfully).
* Exceptions are `Except Err`; every operation returns its (possibly
  mutated) state even on error, since Python mutates objects in place
  before an exception propagates.
* Mutual recursion between evaluation, staleness checking and the
  expression language is bounded by an explicit fuel parameter; fuel
  exhaustion yields `Err.fatal`, which no modelled run reaches.
  Generator wrappers (`TraceableGenerator`) are not modelled; no claim
  mentions them, and `inspect.isgenerator` is `False` for every value
  the model can produce, so the corresponding branch of
  `TraceableVertex.__call__` is vacuous here.
-/

namespace Traced

/-- Exception taxonomy of `traced.py` (`GraphException` and subclasses),
plus `fatal` for `assert` failures and fuel exhaustion (assertion-class
errors: unreachable in the modelled runs). -/
inductive Err where
  | contextException
  | definitionError (msg : String)
  | dependencyException
  | loopException
  | userError (msg : String)
  | fatal (msg : String)
deriving DecidableEq, Repr

/-- Vertex keys: `(hash(traceable), hash(cell))`. -/
abbrev Key := Nat × Nat

/-- Arithmetic operators appearing in the embedded cell expressions.
`fdiv` is Python's floor division `//`. -/
inductive BinOp where
  | addOp | subOp | mulOp | fdivOp
deriving DecidableEq, Repr

mutual
/-- Runtime values.  `vnone` is Python `None` (the initial `value` of a
vertex).  `vclosure` is a plain Python callable returned by a cell body,
closing over its instance; `vwrapped` is a `TraceableClosure` (stored
graph, stored vertex, wrapped callable). -/
inductive Val where
  | vnone
  | vint (n : Int)
  | vstr (s : String)
  | vclosure (selfT : Nat) (body : PExpr)
  | vwrapped (graph : Nat) (vertex : Nat) (func : Val)

/-- Embedded cell-body expressions, evaluated over `self`.
`readCell c` is `self.C()` (descriptor read followed by a call);
`setCell c rhs k` is `self.C = rhs` followed by `k`;
`mkClosure b` returns a Python lambda with body `b`;
`raiseErr` raises a user exception;
`ifEq a b t e` branches on Python `==` of two values. -/
inductive PExpr where
  | lit (v : Val)
  | readCell (cid : Nat)
  | binop (op : BinOp) (a b : PExpr)
  | raiseErr (msg : String)
  | setCell (cid : Nat) (rhs : PExpr) (andThen : PExpr)
  | mkClosure (body : PExpr)
  | ifEq (a b : PExpr) (thn els : PExpr)
end

deriving instance DecidableEq for Val
deriving instance DecidableEq for PExpr
deriving instance DecidableEq for Except

/-- A `Cell`'s `evaluate` member: a callable body or a non-callable
default value. -/
inductive CellExpr where
  | constV (v : Val)
  | fnV (body : PExpr)
deriving DecidableEq

/-- A `Cell` descriptor: identity (`hash(cell)`), `name()`
(`getattr(evaluate, '__name__', None)`, hence `none` for non-callable
defaults), and the evaluation expression. -/
structure CellDef where
  cid : Nat
  cname : Option String
  cexpr : CellExpr
deriving DecidableEq

/-- State of one `TraceableVertex`.  Fields as in the source; `callbacks`
is the vertex's own `NotifierMixin` subscriber set (`[]` models both
`None` and an empty set, which Python treats identically under `if
self.callbacks`). -/
structure VertexData where
  traceable : Nat
  cell : Nat
  dependency_keys : Option (List Key) := none
  evaluated : Option Nat := none
  last_known : Val := .vnone
  overridden : Option Nat := none
  touched : Option Nat := none
  value : Val := .vnone
  callbacks : List Nat := []
deriving DecidableEq

/-- State of one `Graph`: parent link, evaluation stack (head = top,
holding vertex ids, i.e. object identities) and the vertex table
(insertion-ordered association list `key -> vertex id`, modelling the
Python dict; keys are unique because entries are only added when absent). -/
structure GraphData where
  parent : Option Nat := none
  evaluation_stack : List Nat := []
  vertices : List (Key × Nat) := []
deriving DecidableEq

/-- One delivered change notification: the callback invoked and the
payload `(traceable, cell-name-or-None, new_value, old_value)`. -/
structure NotifyEvent where
  cb : Nat
  inst : Nat
  attr : Option String
  newV : Val
  oldV : Val
deriving DecidableEq

/-- Global engine state: the cell registry (class definitions are
immutable after creation), the vertex heap, the graph heap, the
process-global active-graph stack (head = top = `Graph.current()`),
subscriber sets of traceables and of cells (`NotifierMixin` state held on
those objects), the monotonic clock and the log of delivered
notifications. -/
structure State where
  cells : List CellDef
  heap : List VertexData := []
  graphs : List GraphData := []
  active_stack : List Nat := []
  tsubs : List (Nat × List Nat) := []
  csubs : List (Nat × List Nat) := []
  clock : Nat := 0
  events : List NotifyEvent := []

/-- Fetch a vertex by identity. -/
def getVertex (s : State) (vid : Nat) : Option VertexData :=
  s.heap[vid]?

/-- Replace a vertex in the heap (Python mutates the object in place). -/
def setVertex (s : State) (vid : Nat) (vd : VertexData) : State :=
  { s with heap := s.heap.set vid vd }

/-- Fetch a graph by identity. -/
def getGraph (s : State) (g : Nat) : Option GraphData :=
  s.graphs[g]?

/-- Replace a graph in the heap. -/
def setGraph (s : State) (g : Nat) (gd : GraphData) : State :=
  { s with graphs := s.graphs.set g gd }

/-- `time.monotonic()`: a fresh, strictly larger timestamp. -/
def now (s : State) : Nat × State :=
  (s.clock + 1, { s with clock := s.clock + 1 })

/-- `Graph.current()` without the `ContextException`: `none` when the
active stack is empty.  Call sites raise `Err.contextException` where the
source does. -/
def currentGraph (s : State) : Option Nat :=
  s.active_stack.head?

/-- Look up a key in a graph's vertex table. -/
def lookupTable (gd : GraphData) (key : Key) : Option Nat :=
  (gd.vertices.find? (fun p => p.1 == key)).map (fun p => p.2)

/-- Look up an association list (class dict, subscriber maps). -/
def lookupAssoc {β : Type} (l : List (String × β)) (k : String) : Option β :=
  (l.find? (fun p => p.1 == k)).map (fun p => p.2)

/-- Subscribers registered on a traceable or a cell (empty when never
subscribed, like a `None` callback set). -/
def subsOf (m : List (Nat × List Nat)) (k : Nat) : List Nat :=
  match (m.find? (fun p => p.1 == k)).map (fun p => p.2) with
  | none => []
  | some cbs => cbs

/-- Find a cell definition in the registry by id. -/
def findCell (s : State) (cid : Nat) : Option CellDef :=
  s.cells.find? (fun c => c.cid == cid)

/-- `Cell.name()` for a cell id. -/
def cellNameOf (s : State) (cid : Nat) : Option String :=
  match findCell s cid with
  | none => none
  | some cd => cd.cname

/-- Python `==` between engine values, used by `__assign` to decide
whether to notify.  `TraceableClosure` objects and plain function objects
have no `__eq__`, so they compare by identity; a freshly created wrapper
or closure is never the same object as a previously stored value, hence
those comparisons are `false` (fresh-object abstraction). -/
def pyEqB : Val → Val → Bool
  | .vnone, .vnone => true
  | .vint a, .vint b => a == b
  | .vstr a, .vstr b => a == b
  | _, _ => false

/-- Python `callable`. -/
def isCallable : Val → Bool
  | .vclosure _ _ => true
  | .vwrapped _ _ _ => true
  | _ => false

/-- `TraceableVertex.defined`: `self.overridden or self.evaluated`
(timestamps are never `0`, so Python's `or` coincides with `Option`
alternation). -/
def defined (vd : VertexData) : Option Nat :=
  match vd.overridden with
  | some t => some t
  | none => vd.evaluated

/-- Comparison `a < b` on optional timestamps; both sides are present at
every call site reached by the source (`is_newer` is only consulted for a
vertex with `evaluated` set, against a dependency that is clean and hence
timestamped). -/
def optLt : Option Nat → Option Nat → Bool
  | some a, some b => a < b
  | _, _ => false

/-- `TraceableVertex.key` / `graph_key`. -/
def vertexKey (vd : VertexData) : Key :=
  (vd.traceable, vd.cell)

/-- Key of a vertex id (total; unreachable default for dangling ids). -/
def keyOf (s : State) (vid : Nat) : Key :=
  match getVertex s vid with
  | none => (0, 0)
  | some vd => vertexKey vd

/-- `TraceableVertex.undefine`: bump `touched`, clear everything else.
Subscribers are untouched and no notification is generated. -/
def undefine (s : State) (vid : Nat) : State :=
  match getVertex s vid with
  | none => s
  | some vd =>
    let (t, s) := now s
    setVertex s vid
      { vd with
        touched := some t
        dependency_keys := none
        evaluated := none
        last_known := .vnone
        overridden := none
        value := .vnone }

/-- `TraceableVertex.add_dependency`: create the set on first use, skip
keys already present, otherwise bump `touched` and add the key. -/
def add_dependency (s : State) (vid : Nat) (key : Key) : State :=
  match getVertex s vid with
  | none => s
  | some vd =>
    match vd.dependency_keys with
    | none =>
      let (t, s) := now s
      setVertex s vid { vd with touched := some t, dependency_keys := some [key] }
    | some ks =>
      if key ∈ ks then s
      else
        let (t, s) := now s
        setVertex s vid { vd with touched := some t, dependency_keys := some (ks ++ [key]) }

/-- Add an element to a callback list unless already present (set
insertion). -/
def insertAbsent (l : List Nat) (x : Nat) : List Nat :=
  if x ∈ l then l else l ++ [x]

/-- `set(itertools.chain(...))` over the callback sets of the three
notifiers `(vertex, traceable, cell)`: the de-duplicated union. -/
def unionCallbacks (s : State) (vd : VertexData) : List Nat :=
  (vd.callbacks ++ subsOf s.tsubs vd.traceable ++ subsOf s.csubs vd.cell).foldl insertAbsent []

/-- `TraceableVertex.__assign`: store the new value first, then, iff it
differs from the old by value equality, deliver one notification
`(traceable, cell-name, new, old)` to each distinct callback subscribed
to the vertex, the traceable or the cell. -/
def assign (s : State) (vid : Nat) (newV : Val) : State :=
  match getVertex s vid with
  | none => s
  | some vd =>
    let oldV := vd.value
    let s := setVertex s vid { vd with value := newV }
    if pyEqB newV oldV then s
    else
      let cbs := unionCallbacks s vd
      { s with
        events := s.events ++
          cbs.map (fun c => ⟨c, vd.traceable, cellNameOf s vd.cell, newV, oldV⟩) }

/-- `TraceableVertex.override`: `touched = overridden = now()`, then the
assign protocol. -/
def overrideVertex (s : State) (vid : Nat) (v : Val) : State :=
  match getVertex s vid with
  | none => s
  | some vd =>
    let (t, s) := now s
    let s := setVertex s vid { vd with touched := some t, overridden := some t }
    assign s vid v

/-- `TraceableVertex.remove_override`: when overridden, bump `touched`,
clear `overridden` and restore `value := last_known` without notifying. -/
def remove_overrideVertex (s : State) (vid : Nat) : State :=
  match getVertex s vid with
  | none => s
  | some vd =>
    match vd.overridden with
    | none => s
    | some _ =>
      let (t, s) := now s
      setVertex s vid { vd with touched := some t, overridden := none, value := vd.last_known }

/-- `TraceableVertex.is_override`. -/
def is_overrideV (s : State) (vid : Nat) : Bool :=
  match getVertex s vid with
  | none => false
  | some vd => vd.overridden.isSome

/-- `Graph.push_vertex`: with a non-empty evaluation stack, either record
the pushed vertex as a dependency of the top frame or, if the same vertex
(by identity) is already on the stack, undefine it and raise
`LoopException`; finally push. -/
def push_vertex (s : State) (g : Nat) (vid : Nat) : Except Err Unit × State :=
  match getGraph s g with
  | none => (.error (.fatal "no graph"), s)
  | some gd =>
    match gd.evaluation_stack with
    | [] => (.ok (), setGraph s g { gd with evaluation_stack := [vid] })
    | top :: rest =>
      if vid ∈ top :: rest then
        (.error .loopException, undefine s vid)
      else
        let s := add_dependency s top (keyOf s vid)
        (.ok (), setGraph s g { gd with evaluation_stack := vid :: top :: rest })

/-- `Graph.pop_vertex`: pop and assert the top frame is the given vertex. -/
def pop_vertex (s : State) (g : Nat) (vid : Nat) : Except Err Unit × State :=
  match getGraph s g with
  | none => (.error (.fatal "no graph"), s)
  | some gd =>
    match gd.evaluation_stack with
    | [] => (.error (.fatal "evaluation stack empty"), s)
    | top :: rest =>
      if top = vid then (.ok (), setGraph s g { gd with evaluation_stack := rest })
      else (.error (.fatal "top vertex mismatch"), s)

/-- Ancestor walk of `Graph.traceable_vertex` (the `while ancestor`
loop): first table hit up the parent chain.  Fuel bounds the chain length
(parent chains are finite and acyclic in every reachable state; callers
pass the number of graphs). -/
def findAncestorVertex (s : State) : Option Nat → Key → Nat → Option Nat
  | none, _, _ => none
  | some _, _, 0 => none
  | some g, key, fuel + 1 =>
    match getGraph s g with
    | none => none
    | some gd =>
      match lookupTable gd key with
      | some vid => some vid
      | none => findAncestorVertex s gd.parent key fuel

/-- Resolution modes of `Graph.traceable_vertex`: `delete`, `get`, `set`,
`trace`. -/
inductive Mode where
  | mdel | mget | mset | mtrace
deriving DecidableEq, Repr

/-- Allocate a fresh undefined vertex for `(instT, cellC)` on graph `g`
(the creation arm of `Graph.traceable_vertex`). -/
def createVertex (s : State) (g : Nat) (instT cellC : Nat) (key : Key) : Option Nat × State :=
  match getGraph s g with
  | none => (none, s)
  | some gd =>
    let vid := s.heap.length
    let s := { s with heap := s.heap ++ [{ traceable := instT, cell := cellC }] }
    (some vid, setGraph s g { gd with vertices := gd.vertices ++ [(key, vid)] })

/-- `Graph.traceable_vertex`: resolve a vertex for the given mode.  A hit
in the current graph's table is returned as-is; otherwise `set` creates
on the current graph, and the other modes search the ancestors, creating
on the current graph exactly when nothing was found in `get` mode or when
the ancestor hit is an override in `delete` mode.  For `trace` the caller
passes an explicit key and dummy `instT`/`cellC` (the source passes
`None`; they are only used on creation paths, which `trace` never takes). -/
def traceable_vertex (s : State) (g : Nat) (instT cellC : Nat) (mode : Mode) (key : Key) :
    Option Nat × State :=
  match getGraph s g with
  | none => (none, s)
  | some gd =>
    match lookupTable gd key with
    | some vid => (some vid, s)
    | none =>
      match mode with
      | .mset => createVertex s g instT cellC key
      | _ =>
        match findAncestorVertex s gd.parent key s.graphs.length with
        | none =>
          if mode = .mget then createVertex s g instT cellC key
          else (none, s)
        | some avid =>
          if is_overrideV s avid ∧ mode = .mdel then createVertex s g instT cellC key
          else (some avid, s)

/-- The `trace` mode as used by `Graph.vertex_stale`: pure lookup, never
creates, never mutates (projection of `traceable_vertex`). -/
def graphTrace (s : State) (g : Nat) (key : Key) : Option Nat :=
  (traceable_vertex s g 0 0 .mtrace key).1

/-- `Graph.read`: `get`-mode resolution for `(traceable, cell)`. -/
def graphRead (s : State) (g : Nat) (instT cellC : Nat) : Option Nat × State :=
  traceable_vertex s g instT cellC .mget (instT, cellC)

/-- `Graph.override`: legal only with an empty evaluation stack, in which
case the target vertex is materialized on this graph (`set` mode) and
overridden; otherwise `DependencyException` with nothing created or
modified. -/
def graphOverride (s : State) (g : Nat) (instT : Nat) (cd : CellDef) (v : Val) :
    Except Err Unit × State :=
  match getGraph s g with
  | none => (.error (.fatal "no graph"), s)
  | some gd =>
    match gd.evaluation_stack with
    | [] =>
      match traceable_vertex s g instT cd.cid .mset (instT, cd.cid) with
      | (some vid, s) => (.ok (), overrideVertex s vid v)
      | (none, s) => (.error (.fatal "no vertex"), s)
    | _ :: _ => (.error .dependencyException, s)

/-- `Graph.remove_override`: `delete`-mode resolution, then
`remove_override` on the vertex if one was found. -/
def graphRemoveOverride (s : State) (g : Nat) (instT cellC : Nat) : State :=
  match traceable_vertex s g instT cellC .mdel (instT, cellC) with
  | (some vid, s) => remove_overrideVertex s vid
  | (none, s) => s

/-! ## Staleness: `is_dirty` / `vertex_stale` / `is_newer`

These recurse through the dependency graph without mutating state.  To
keep kernel reduction tractable they are written as one step functional
over a record of the three functions, iterated by the fuel (each level
calls the previous level; fuel exhaustion yields `false`).  Every
modelled run supplies ample fuel.  `is_dirty` reads `Graph.current()`;
when the active stack is empty the source raises `ContextException`
(unreachable from the modelled entry points, which all establish an
active graph first), here `false`. -/

/-- The three staleness functions at a given recursion depth. -/
structure DirtyFns where
  dirtyF : State → Nat → Bool
  staleF : State → Nat → Nat → Bool
  newerF : State → Nat → Nat → Bool

/-- One level of the staleness recursion; `prev` holds the functions used
for the recursive occurrences. -/
def dirtyStep (prev : DirtyFns) : DirtyFns where
  /- `TraceableVertex.is_dirty`: not overridden, and never evaluated or
  stale against the current graph. -/
  dirtyF s vid :=
    match getVertex s vid with
    | none => false
    | some vd =>
      vd.overridden.isNone &&
        (vd.evaluated.isNone ||
          match currentGraph s with
          | none => false
          | some g => prev.staleF s g vid)
  /- `Graph.vertex_stale`: some dependency key resolves (trace mode) to
  no vertex or to a newer one. -/
  staleF s g vid :=
    match getVertex s vid with
    | none => false
    | some vd =>
      match vd.dependency_keys with
      | none => false
      | some ks =>
        ks.any fun k =>
          match graphTrace s g k with
          | none => true
          | some dvid => prev.newerF s dvid vid
  /- `TraceableVertex.is_newer`: this vertex (a dependency) is newer than
  the other iff it is itself dirty or the other was defined strictly
  before this one was last touched. -/
  newerF s wid vid :=
    match getVertex s wid, getVertex s vid with
    | some wd, some vd => prev.dirtyF s wid || optLt (defined vd) wd.touched
    | _, _ => false

/-- The staleness functions with recursion depth `fuel`. -/
def dirtyFns : Nat → DirtyFns
  | 0 => ⟨fun _ _ => false, fun _ _ _ => false, fun _ _ _ => false⟩
  | fuel + 1 => dirtyStep (dirtyFns fuel)

/-- `TraceableVertex.is_dirty` (at recursion depth `fuel`). -/
def is_dirty (s : State) (vid : Nat) (fuel : Nat) : Bool :=
  (dirtyFns fuel).dirtyF s vid

/-- `Graph.vertex_stale` (at recursion depth `fuel`). -/
def vertex_stale (s : State) (g : Nat) (vid : Nat) (fuel : Nat) : Bool :=
  (dirtyFns fuel).staleF s g vid

/-- `TraceableVertex.is_newer` (at recursion depth `fuel`). -/
def is_newer (s : State) (wid vid : Nat) (fuel : Nat) : Bool :=
  (dirtyFns fuel).newerF s wid vid

/-! ## Evaluation: `TraceableVertex.__call__` and cell bodies

Same device: one step functional over a record of the four evaluation
functions, iterated by the fuel. -/

/-- The four evaluation functions at a given recursion depth. -/
structure EvalFns where
  vcallF : State → Nat → Except Err Val × State
  vbodyF : State → Nat → Nat → Except Err Val × State
  pexprF : State → Nat → PExpr → Except Err Val × State
  cvalF : State → Val → Except Err Val × State

/-- One level of the evaluation recursion.  `dirtyPrev` is the dirty
check at the matching depth (`__call__` at depth `fuel + 1` consults
`is_dirty` at depth `fuel`). -/
def evalStep (dirtyPrev : State → Nat → Bool) (prev : EvalFns) : EvalFns where
  /- `TraceableVertex.__call__`: push onto the current graph's evaluation
  stack (outside the `try`, so a loop failure is not popped), run the
  body, and pop in all cases (`finally`). -/
  vcallF s vid :=
    match currentGraph s with
    | none => (.error .contextException, s)
    | some cg =>
      match push_vertex s cg vid with
      | (.error e, s) => (.error e, s)
      | (.ok _, s) =>
        let (r, s) := prev.vbodyF s cg vid
        match pop_vertex s cg vid with
        | (.error e2, s) => (.error e2, s)
        | (.ok _, s) => (r, s)
  /- Body of `TraceableVertex.__call__` between push and pop: return the
  cached value unless dirty; otherwise bump `touched`, clear the
  dependency set, evaluate the cell expression (a non-callable `evaluate`
  is the value itself), wrap a returned callable in a `TraceableClosure`
  bound to the current graph and this vertex, then set
  `evaluated := touched` (as bumped by dependency registration) and
  assign the result.  On an exception from the expression nothing after
  the evaluation runs. -/
  vbodyF s cg vid :=
    match getVertex s vid with
    | none => (.error (.fatal "no vertex"), s)
    | some vd =>
      if dirtyPrev s vid = false then (.ok vd.value, s)
      else
        let (t, s) := now s
        let s := setVertex s vid { vd with touched := some t, dependency_keys := none }
        match findCell s vd.cell with
        | none => (.error (.fatal "no cell"), s)
        | some cd =>
          let rs : Except Err Val × State :=
            match cd.cexpr with
            | .constV v => (.ok v, s)
            | .fnV body => prev.pexprF s vd.traceable body
          let (r, s) := rs
          match r with
          | .error e => (.error e, s)
          | .ok raw =>
            let lk := if isCallable raw then Val.vwrapped cg vid raw else raw
            match getVertex s vid with
            | none => (.error (.fatal "no vertex"), s)
            | some vd2 =>
              let s := setVertex s vid { vd2 with last_known := lk, evaluated := vd2.touched }
              let s := assign s vid lk
              match getVertex s vid with
              | none => (.error (.fatal "no vertex"), s)
              | some vd3 => (.ok vd3.value, s)
  /- Evaluate an embedded cell-body expression over instance `selfT`.
  `readCell` is attribute access (`Cell.__get__` resolving via
  `Graph.current().read`) followed by the vertex call; `setCell` is
  `Cell.__set__` (`Graph.current().override`). -/
  pexprF s selfT e :=
    match e with
    | .lit v => (.ok v, s)
    | .readCell cid =>
      match currentGraph s with
      | none => (.error .contextException, s)
      | some g =>
        match graphRead s g selfT cid with
        | (none, s) => (.error (.fatal "no vertex"), s)
        | (some vid, s) => prev.vcallF s vid
    | .binop op a b =>
      match prev.pexprF s selfT a with
      | (.error e1, s) => (.error e1, s)
      | (.ok va, s) =>
        match prev.pexprF s selfT b with
        | (.error e2, s) => (.error e2, s)
        | (.ok vb, s) =>
          match va, vb with
          | .vint x, .vint y =>
            let z :=
              match op with
              | .addOp => x + y
              | .subOp => x - y
              | .mulOp => x * y
              | .fdivOp => Int.fdiv x y
            (.ok (.vint z), s)
          | _, _ => (.error (.userError "TypeError"), s)
    | .raiseErr m => (.error (.userError m), s)
    | .setCell cid rhs andThen =>
      match prev.pexprF s selfT rhs with
      | (.error e1, s) => (.error e1, s)
      | (.ok v, s) =>
        match currentGraph s with
        | none => (.error .contextException, s)
        | some g =>
          match findCell s cid with
          | none => (.error (.fatal "no cell"), s)
          | some cd =>
            match graphOverride s g selfT cd v with
            | (.error e2, s) => (.error e2, s)
            | (.ok _, s) => prev.pexprF s selfT andThen
    | .mkClosure body => (.ok (.vclosure selfT body), s)
    | .ifEq a b thn els =>
      match prev.pexprF s selfT a with
      | (.error e1, s) => (.error e1, s)
      | (.ok va, s) =>
        match prev.pexprF s selfT b with
        | (.error e2, s) => (.error e2, s)
        | (.ok vb, s) =>
          if pyEqB va vb then prev.pexprF s selfT thn
          else prev.pexprF s selfT els
  /- Invoke a runtime value as user code does.  A `TraceableClosure`
  (`vwrapped`) runs `TraceableWrapper.wrap`: push the *stored* vertex
  onto the *stored* graph's evaluation stack, invoke the wrapped
  callable, and pop in a `finally` (here both push and call sit inside
  the `try`, unlike `__call__`). -/
  cvalF s v :=
    match v with
    | .vclosure selfT body => prev.pexprF s selfT body
    | .vwrapped g vid func =>
      match push_vertex s g vid with
      | (.error e, s) =>
        match pop_vertex s g vid with
        | (.error e2, s) => (.error e2, s)
        | (.ok _, s) => (.error e, s)
      | (.ok _, s) =>
        let (r, s) := prev.cvalF s func
        match pop_vertex s g vid with
        | (.error e2, s) => (.error e2, s)
        | (.ok _, s) => (r, s)
    | _ => (.error (.userError "not callable"), s)

/-- The evaluation functions with recursion depth `fuel`. -/
def evalFns : Nat → EvalFns
  | 0 =>
    ⟨fun s _ => (.error (.fatal "fuel"), s), fun s _ _ => (.error (.fatal "fuel"), s),
     fun s _ _ => (.error (.fatal "fuel"), s), fun s _ => (.error (.fatal "fuel"), s)⟩
  | fuel + 1 => evalStep ((dirtyFns fuel).dirtyF) (evalFns fuel)

/-- `TraceableVertex.__call__` (at recursion depth `fuel`). -/
def vertexCall (s : State) (vid : Nat) (fuel : Nat) : Except Err Val × State :=
  (evalFns fuel).vcallF s vid

/-- Body of `TraceableVertex.__call__` between push and pop. -/
def vertexCallBody (s : State) (cg vid : Nat) (fuel : Nat) : Except Err Val × State :=
  (evalFns fuel).vbodyF s cg vid

/-- Evaluation of an embedded cell-body expression. -/
def evalPExpr (s : State) (selfT : Nat) (e : PExpr) (fuel : Nat) : Except Err Val × State :=
  (evalFns fuel).pexprF s selfT e

/-- Invocation of a runtime value from user code. -/
def callVal (s : State) (v : Val) (fuel : Nat) : Except Err Val × State :=
  (evalFns fuel).cvalF s v

/-! ## User-facing surface -/

/-- `Graph()`: construct a graph (empty table and stack, no parent). -/
def graphNew (s : State) : Nat × State :=
  (s.graphs.length, { s with graphs := s.graphs ++ [{}] })

/-- `Graph.__enter__`: when a graph is already active, adopt it as parent
(re-entry under a different parent is the fatal reparenting assertion),
then push onto the process-global active stack. -/
def graphEnter (s : State) (g : Nat) : Except Err Unit × State :=
  match getGraph s g with
  | none => (.error (.fatal "no graph"), s)
  | some gd =>
    match s.active_stack with
    | [] => (.ok (), { s with active_stack := [g] })
    | cg :: rest =>
      if gd.parent = none ∨ gd.parent = some cg then
        let s := setGraph s g { gd with parent := some cg }
        (.ok (), { s with active_stack := g :: cg :: rest })
      else (.error (.fatal "reparenting not supported"), s)

/-- `Graph.__exit__`: pop the active stack, asserting this graph is on
top. -/
def graphExit (s : State) (g : Nat) : Except Err Unit × State :=
  match s.active_stack with
  | [] => (.error (.fatal "no active graph"), s)
  | cg :: rest =>
    if cg = g then (.ok (), { s with active_stack := rest })
    else (.error (.fatal "active graph mismatch"), s)

/-- String comparison used to model Python `sorted` on attribute names
(lexicographic by code point). -/
def strLeB (a b : String) : Bool :=
  match compare a b with
  | .gt => false
  | _ => true

/-- Insert into a sorted list of strings. -/
def insertSorted (x : String) : List String → List String
  | [] => [x]
  | y :: ys => if strLeB x y then x :: y :: ys else y :: insertSorted x ys

/-- Python `sorted` on strings (insertion sort). -/
def sortStr : List String → List String
  | [] => []
  | x :: xs => insertSorted x (sortStr xs)

/-- The `DefinitionError` message of `Traceable.__init__` for a list of
unknown attribute names. -/
def missingMsg (missing : List String) : String :=
  "Attribute(s) " ++ String.intercalate ", " (sortStr missing) ++ " not found"

/-- The keyword loop of `Traceable.__init__`: apply each override whose
name denotes a `Cell` of the class (`setattr`, i.e.
`Graph.current().override`), collect the names that do not, and raise
`DefinitionError` naming the sorted unknown attributes once the loop
finishes.  An exception from an override propagates immediately. -/
def initLoop (s : State) (tid : Nat) (cls : List (String × CellDef)) :
    List (String × Val) → List String → Except Err Unit × State
  | [], missing =>
    if missing = [] then (.ok (), s)
    else (.error (.definitionError (missingMsg missing)), s)
  | (k, v) :: rest, missing =>
    match lookupAssoc cls k with
    | some cd =>
      match currentGraph s with
      | none => (.error .contextException, s)
      | some g =>
        match graphOverride s g tid cd v with
        | (.error e, s) => (.error e, s)
        | (.ok _, s) => initLoop s tid cls rest missing
    | none => initLoop s tid cls rest (missing ++ [k])

/-- `Traceable.__init__`: bind to the current graph (raising
`ContextException` when none is active), then run the keyword loop.
`cls` is the class dict restricted to its `Cell` members. -/
def traceableInit (s : State) (tid : Nat) (cls : List (String × CellDef))
    (kw : List (String × Val)) : Except Err Unit × State :=
  match currentGraph s with
  | none => (.error .contextException, s)
  | some _ => initLoop s tid cls kw []

/-- `instance.C()`: `Cell.__get__` (resolution in `get` mode on the
current graph) followed by `TraceableVertex.__call__`. -/
def cellRead (s : State) (instT cellC : Nat) (fuel : Nat) : Except Err Val × State :=
  match currentGraph s with
  | none => (.error .contextException, s)
  | some g =>
    match graphRead s g instT cellC with
    | (none, s) => (.error (.fatal "no vertex"), s)
    | (some vid, s) => vertexCall s vid fuel

/-- `instance.C = v`: `Cell.__set__`, i.e. `Graph.current().override`. -/
def cellSet (s : State) (instT : Nat) (cd : CellDef) (v : Val) : Except Err Unit × State :=
  match currentGraph s with
  | none => (.error .contextException, s)
  | some g => graphOverride s g instT cd v

/-- `del instance.C`: `Cell.__delete__`, i.e.
`Graph.current().remove_override`. -/
def cellDel (s : State) (instT cellC : Nat) : Except Err Unit × State :=
  match currentGraph s with
  | none => (.error .contextException, s)
  | some g => (.ok (), graphRemoveOverride s g instT cellC)

/-- `instance.C.subscribe(cb)`: resolve the vertex (`get` mode, creating
it if absent) and add the callback to its subscriber set. -/
def subscribeVertex (s : State) (instT cellC cb : Nat) : Except Err Unit × State :=
  match currentGraph s with
  | none => (.error .contextException, s)
  | some g =>
    match graphRead s g instT cellC with
    | (none, s) => (.error (.fatal "no vertex"), s)
    | (some vid, s) =>
      match getVertex s vid with
      | none => (.error (.fatal "no vertex"), s)
      | some vd => (.ok (), setVertex s vid { vd with callbacks := insertAbsent vd.callbacks cb })

/-- `instance.subscribe(cb)`. -/
def subscribeTraceable (s : State) (tid cb : Nat) : State :=
  { s with tsubs := (tid, insertAbsent (subsOf s.tsubs tid) cb) ::
      s.tsubs.filter (fun p => p.1 ≠ tid) }

/-- `SomeClass.C.subscribe(cb)` (class-level, on the cell descriptor). -/
def subscribeCell (s : State) (cellC cb : Nat) : State :=
  { s with csubs := (cellC, insertAbsent (subsOf s.csubs cellC) cb) ::
      s.csubs.filter (fun p => p.1 ≠ cellC) }

/-! ## Concrete classes and scenarios

Cell ids are globally distinct (they model `hash(cell)`, and cells are
created once at class definition time). -/

/-- `Diamond.X` (the `count_x` side effect is a plain attribute outside
the engine; `X` is overridden throughout scenario S6 and its body never
runs there). -/
def cellX : CellDef := ⟨0, some "X", .fnV (.lit (.vint 6))⟩

/-- `Diamond.Y1 = X() * 2`. -/
def cellY1 : CellDef := ⟨1, some "Y1", .fnV (.binop .mulOp (.readCell 0) (.lit (.vint 2)))⟩

/-- `Diamond.Y2 = X() // 2`. -/
def cellY2 : CellDef := ⟨2, some "Y2", .fnV (.binop .fdivOp (.readCell 0) (.lit (.vint 2)))⟩

/-- `Diamond.Z = Y1() + Y2()`. -/
def cellZ : CellDef := ⟨3, some "Z", .fnV (.binop .addOp (.readCell 1) (.readCell 2))⟩

/-- The `Diamond` class dict (its `Cell` members). -/
def diamondCls : List (String × CellDef) :=
  [("X", cellX), ("Y1", cellY1), ("Y2", cellY2), ("Z", cellZ)]

/-- `Loop.First = Third() * 3`. -/
def cellFirst : CellDef := ⟨4, some "First", .fnV (.binop .mulOp (.readCell 6) (.lit (.vint 3)))⟩

/-- `Loop.Second = First() - 5`. -/
def cellSecond : CellDef := ⟨5, some "Second", .fnV (.binop .subOp (.readCell 4) (.lit (.vint 5)))⟩

/-- `Loop.Third = Second() + 10`. -/
def cellThird : CellDef := ⟨6, some "Third", .fnV (.binop .addOp (.readCell 5) (.lit (.vint 10)))⟩

/-- The `Loop` class dict. -/
def loopCls : List (String × CellDef) :=
  [("First", cellFirst), ("Second", cellSecond), ("Third", cellThird)]

/-- A non-callable default cell `A = Cell(1)` (anonymous). -/
def cellA : CellDef := ⟨7, none, .constV (.vint 1)⟩

/-- A cell whose body reads `A()` and raises unless it equals `1`:
`B = A() if A() == 1 else raise`. -/
def cellB : CellDef :=
  ⟨8, some "B",
    .fnV (.ifEq (.readCell 7) (.lit (.vint 1)) (.readCell 7) (.raiseErr "boom"))⟩

/-- Class dict with `A` and `B`. -/
def abCls : List (String × CellDef) := [("A", cellA), ("B", cellB)]

/-- A non-callable default cell `G = Cell(5)` (anonymous). -/
def cellG : CellDef := ⟨9, none, .constV (.vint 5)⟩

/-- `F`: a cell whose body returns a lambda reading `G()` when invoked. -/
def cellF : CellDef := ⟨10, some "F", .fnV (.mkClosure (.readCell 9))⟩

/-- Class dict with `G` and `F`. -/
def gfCls : List (String × CellDef) := [("G", cellG), ("F", cellF)]

/-- A non-callable default cell `S = Cell('abc')` (anonymous). -/
def cellS : CellDef := ⟨11, none, .constV (.vstr "abc")⟩

/-- `R`: a cell whose body overrides another cell (`S = 'asdf'`) and
returns `3` (like `Rogue.AnotherValue`). -/
def cellR : CellDef := ⟨12, some "R", .fnV (.setCell 11 (.lit (.vstr "asdf")) (.lit (.vint 3)))⟩

/-- Class dict with `S` and `R`. -/
def srCls : List (String × CellDef) := [("S", cellS), ("R", cellR)]

/-- Global cell registry for the scenario runs. -/
def theCells : List CellDef :=
  [cellX, cellY1, cellY2, cellZ, cellFirst, cellSecond, cellThird,
   cellA, cellB, cellG, cellF, cellS, cellR]

/-- Initial engine state for the scenario runs. -/
def state0 : State := { cells := theCells }

/-- Fuel that amply covers every scenario's recursion depth. -/
def fu : Nat := 40

/-- Observable view of a graph's vertex table: the table in order, each
entry with its key and the full referenced vertex state (value,
`evaluated` / `overridden` / `touched`, dependency keys, `last_known`,
subscribers). -/
def graphTableView (s : State) (g : Nat) : Option (List (Key × Option VertexData)) :=
  (getGraph s g).map (fun gd => gd.vertices.map (fun p => (p.1, getVertex s p.2)))

/-! ### Scenario S6 as claimed (with the pre-read of `Z` in G1)

`with Graph() as g1: d = Diamond(X = 20); d.Z(); with Graph() as g2:
d.X = -8; d.Z(); -- exit g2 -- ; d.Z()` with traceable id 0. -/

/-- G1 (graph 0) created and entered. -/
def c1s1 : State := (graphEnter (graphNew state0).2 0).2

/-- `Diamond(X = 20)` constructed. -/
def c1s2 : State := (traceableInit c1s1 0 diamondCls [("X", .vint 20)]).2

/-- First read of `Z` in G1 (the pre-read the claim performs). -/
def c1pre : Except Err Val × State := cellRead c1s2 0 3 fu

/-- G2 (graph 1) created and entered after the pre-read. -/
def c1s4 : State := (graphEnter (graphNew c1pre.2).2 1).2

/-- `d.X = -8` in G2. -/
def c1s5 : State := (cellSet c1s4 0 cellX (.vint (-8))).2

/-- Read of `Z` in G2. -/
def c1mid : Except Err Val × State := cellRead c1s5 0 3 fu

/-- G2 exited. -/
def c1s6 : State := (graphExit c1mid.2 1).2

/-- Read of `Z` back in G1 after G2 exited. -/
def c1post : Except Err Val × State := cellRead c1s6 0 3 fu

/-! ### Scenario S6 without the pre-read (the shipped test
`MultiGraphTest.test_subgraph`) -/

/-- G2 created and entered directly after construction. -/
def a1s3 : State := (graphEnter (graphNew c1s2).2 1).2

/-- `d.X = -8` in G2. -/
def a1s4 : State := (cellSet a1s3 0 cellX (.vint (-8))).2

/-- Read of `Z` in G2. -/
def a1mid : Except Err Val × State := cellRead a1s4 0 3 fu

/-- G2 exited. -/
def a1s5 : State := (graphExit a1mid.2 1).2

/-- Read of `Z` back in G1. -/
def a1post : Except Err Val × State := cellRead a1s5 0 3 fu

/-! ### User-exception scenario (traceable id 2, cells `A`, `B`)

`with Graph(): t = AB(); t.B(); t.A = -1; t.B(); t.B()` — the second and
third reads raise from `B`'s body after it has re-read `A`. -/

/-- Graph 0 entered, `AB()` constructed. -/
def c2s1 : State := (traceableInit (graphEnter (graphNew state0).2 0).2 2 abCls []).2

/-- First read of `B`: succeeds with `1`. -/
def c2r1 : Except Err Val × State := cellRead c2s1 2 8 fu

/-- Override `A = -1`. -/
def c2s2 : State := (cellSet c2r1.2 2 cellA (.vint (-1))).2

/-- Second read of `B`: the body re-reads `A`, then raises. -/
def c2r2 : Except Err Val × State := cellRead c2s2 2 8 fu

/-- Third read of `B`: re-attempts (B is dirty against the re-registered
dependency) and raises again. -/
def c2r3 : Except Err Val × State := cellRead c2r2.2 2 8 fu

/-- Identity of `B`'s vertex in this run (first vertex created: the
`get`-mode read of `B` creates it before `A`'s). -/
def c2vidB : Nat := 0

/-! ### Closure-wrapper scenario (traceable id 3, cells `G`, `F`) -/

/-- Graph 0 entered, `GF()` constructed, then `F` read: the value is a
`TraceableClosure` wrapping the lambda, bound to graph 0 and `F`'s
vertex (vertex 0). -/
def c5read : Except Err Val × State :=
  cellRead (traceableInit (graphEnter (graphNew state0).2 0).2 3 gfCls []).2 3 10 fu

/-- The wrapper value returned by reading `F`. -/
def c5wrapper : Val :=
  match c5read.1 with
  | .ok v => v
  | .error _ => .vnone

/-- Invoking the wrapper while graph 0 (its creation graph) is current. -/
def c5invokeSame : Except Err Val × State := callVal c5read.2 c5wrapper fu

/-- Instead: enter nested graph 1 and invoke the wrapper there, while
graph 1 is the current (innermost active) graph. -/
def c5nested : State := (graphEnter (graphNew c5read.2).2 1).2

/-- Invoking the wrapper under the nested graph 1. -/
def c5invokeNested : Except Err Val × State := callVal c5nested c5wrapper fu

/-! ### Remove-override notification scenario (traceable id 4, cell `S`)

`with Graph(): t = SR(); t.S.subscribe(cb); t.S(); t.S = 'xyz';
del t.S`. -/

/-- Graph 0 entered, `SR()` constructed, callback 100 subscribed to
`S`'s vertex (which the subscription materializes as vertex 0). -/
def c6s1 : State :=
  (subscribeVertex (traceableInit (graphEnter (graphNew state0).2 0).2 4 srCls []).2 4 11 100).2

/-- Read `S`: evaluates the default `'abc'`, notifying callback 100. -/
def c6r1 : Except Err Val × State := cellRead c6s1 4 11 fu

/-- Override `S = 'xyz'`: notifies callback 100. -/
def c6s2 : State := (cellSet c6r1.2 4 cellS (.vstr "xyz")).2

/-- `del t.S`: restores `value := last_known = 'abc'`. -/
def c6s3 : State := (cellDel c6s2 4 11).2

/-! ### Override-during-evaluation scenario (S5; traceable id 4, cell `R`) -/

/-- Graph 0 entered, `SR()` constructed, then `R` read: its body
attempts `self.S = 'asdf'` while `R` is on the evaluation stack. -/
def c8run : Except Err Val × State :=
  cellRead (traceableInit (graphEnter (graphNew state0).2 0).2 4 srCls []).2 4 12 fu

/-! ### Loop scenarios (S4; traceable id 1, cells `First`/`Second`/`Third`) -/

/-- Graph 0 entered, `Loop()` constructed. -/
def c9s1 : State := (traceableInit (graphEnter (graphNew state0).2 0).2 1 loopCls []).2

/-- Reading `First` first. -/
def c9first : Except Err Val × State := cellRead c9s1 1 4 fu

/-- Reading `Third` first (fresh graph and instance, as in the test). -/
def c9third : Except Err Val × State := cellRead c9s1 1 6 fu

/-- Breaking the cycle: `Loop(First = 17)` in a fresh graph. -/
def c9s2 : State :=
  (traceableInit (graphEnter (graphNew state0).2 0).2 1 loopCls [("First", .vint 17)]).2

/-- `Third()` with the cycle broken. -/
def c9broken : Except Err Val × State := cellRead c9s2 1 6 fu

/-- `Second()` afterwards. -/
def c9broken2 : Except Err Val × State := cellRead c9broken.2 1 5 fu

/-! ### Mixed-keyword construction scenario (traceable id 0, `Diamond`)

`Diamond(Z1 = 50, Y3 = 10, X = 30)` — the unknown names arrive out of
order, so the message exhibits the sorting. -/

/-- Graph 0 entered. -/
def c10s1 : State := (graphEnter (graphNew state0).2 0).2

/-- The failing construction. -/
def c10run : Except Err Unit × State :=
  traceableInit c10s1 0 diamondCls [("Z1", .vint 50), ("Y3", .vint 10), ("X", .vint 30)]

/-! ## Helper definitions for the theorems -/

/-- The notification batch `__assign` emits when the value changes: one
event per distinct subscribed callback, with payload
`(traceable, cell-name, new, old)`. -/
def assignEvents (s : State) (vd : VertexData) (n : Val) : List NotifyEvent :=
  (unionCallbacks s vd).map (fun c => ⟨c, vd.traceable, cellNameOf s vd.cell, n, vd.value⟩)

/-- A state in which `Graph.current()` exists and its evaluation stack is
empty — the situation of top-level user code, under which overrides are
legal. -/
def readyB (s : State) : Bool :=
  match currentGraph s with
  | none => false
  | some g =>
    match getGraph s g with
    | none => false
    | some gd => gd.evaluation_stack.isEmpty

/-- The keyword pairs of a construction whose names denote cells of the
class. -/
def knownPairs (cls : List (String × CellDef)) (kw : List (String × Val)) :
    List (String × Val) :=
  kw.filter (fun p => (lookupAssoc cls p.1).isSome)

/-- The keyword names of a construction that denote no cell of the class,
in keyword order. -/
def unknownNames (cls : List (String × CellDef)) (kw : List (String × Val)) :
    List String :=
  (kw.filter (fun p => (lookupAssoc cls p.1).isNone)).map Prod.fst

/-! ## Handcrafted states for witnesses -/

/-- A state with a previously evaluated vertex `0` (for `B`) whose
dependency `A` (vertex `1`) was overridden later: vertex `0` is dirty. -/
def w3state : State :=
  { cells := theCells,
    heap := [⟨2, 8, some [(2, 7)], some 2, .vint 1, none, some 2, .vint 1, []⟩,
             ⟨2, 7, none, none, .vnone, some 3, some 3, .vint (-1), []⟩],
    graphs := [⟨none, [], [((2, 8), 0), ((2, 7), 1)]⟩],
    active_stack := [0] }

/-- A parent graph `0` holding an overridden vertex `0` for `(2, 7)`, and
an empty child graph `1` that is current. -/
def w4state : State :=
  { cells := theCells,
    heap := [⟨2, 7, none, none, .vnone, some 1, some 1, .vint 9, []⟩],
    graphs := [⟨none, [], [((2, 7), 0)]⟩, ⟨some 0, [], []⟩],
    active_stack := [1] }

/-- A vertex with subscribers on itself (`100`, `101`), on its traceable
(`100` again) and on its cell (`102`): a broadcast reaches `100`, `101`,
`102` once each. -/
def w7state : State :=
  { cells := theCells,
    heap := [⟨4, 11, none, some 1, .vstr "abc", none, some 1, .vstr "abc", [100, 101]⟩],
    graphs := [⟨none, [], [((4, 11), 0)]⟩],
    active_stack := [0],
    tsubs := [(4, [100])],
    csubs := [(11, [102])] }

/-- A current graph whose evaluation stack is non-empty (vertex `0` is
being evaluated). -/
def w8state : State :=
  { cells := theCells,
    heap := [⟨4, 12, none, none, .vnone, none, some 1, .vnone, []⟩],
    graphs := [⟨none, [0], [((4, 12), 0)]⟩],
    active_stack := [0] }

/-- A graph whose evaluation stack already holds vertex `0`: pushing
vertex `0` again is the loop condition. -/
def w9state : State :=
  { cells := theCells,
    heap := [⟨1, 4, some [(1, 6)], none, .vnone, none, some 2, .vnone, []⟩],
    graphs := [⟨none, [0], [((1, 4), 0)]⟩],
    active_stack := [0] }

/-! ## Helper lemmas -/

/-- Looking up a vertex right after writing it. -/
theorem getVertex_setVertex_self {s : State} {vid : Nat} {vd : VertexData}
    (vd2 : VertexData) (hv : getVertex s vid = some vd) :
    getVertex (setVertex s vid vd2) vid = some vd2 := by
  have hlt : vid < s.heap.length := (List.getElem?_eq_some.mp hv).1
  simpa [getVertex, setVertex] using List.getElem?_set_eq_of_lt vd2 hlt

/-- Appending events does not change the heap. -/
theorem getVertex_events (s : State) (vid : Nat) (es : List NotifyEvent) :
    getVertex { s with events := es } vid = getVertex s vid := rfl

/-- Looking up a graph right after writing it. -/
theorem getGraph_setGraph_self {s : State} {g : Nat} {gd gd2 : GraphData}
    (hg : getGraph s g = some gd) :
    getGraph (setGraph s g gd2) g = some gd2 := by
  have hlt : g < s.graphs.length := (List.getElem?_eq_some.mp hg).1
  simpa [getGraph, setGraph] using List.getElem?_set_eq_of_lt gd2 hlt

/-- `__assign` touches only the heap and the event log. -/
theorem assign_frame (s : State) (vid : Nat) (n : Val) :
    (assign s vid n).graphs = s.graphs ∧ (assign s vid n).active_stack = s.active_stack ∧
    (assign s vid n).cells = s.cells ∧ (assign s vid n).clock = s.clock ∧
    (assign s vid n).tsubs = s.tsubs ∧ (assign s vid n).csubs = s.csubs := by
  unfold assign
  cases h : getVertex s vid with
  | none => exact ⟨rfl, rfl, rfl, rfl, rfl, rfl⟩
  | some vd =>
    by_cases hp : pyEqB n vd.value <;> simp [setVertex, hp]

/-- Core behaviour of `__assign`: the value is written first, and the
notification batch is appended exactly when the new value differs by
value equality. -/
theorem assign_spec {s : State} {vid : Nat} {vd : VertexData} (n : Val)
    (hv : getVertex s vid = some vd) :
    getVertex (assign s vid n) vid = some { vd with value := n } ∧
    (pyEqB n vd.value = true → (assign s vid n).events = s.events) ∧
    (pyEqB n vd.value = false →
      (assign s vid n).events = s.events ++ assignEvents s vd n) := by
  have hset := getVertex_setVertex_self { vd with value := n } hv
  refine ⟨?_, ?_, ?_⟩
  · unfold assign
    rw [hv]
    by_cases hp : pyEqB n vd.value <;> simp [hp] <;>
      simpa [getVertex_events] using hset
  · intro hp
    unfold assign
    rw [hv]
    simp [hp, setVertex]
  · intro hp
    unfold assign
    rw [hv]
    simp [hp, assignEvents, unionCallbacks, subsOf, cellNameOf, findCell, setVertex]

/-- Membership in a set insertion. -/
theorem mem_insertAbsent {l : List Nat} {x y : Nat} :
    y ∈ insertAbsent l x ↔ y ∈ l ∨ y = x := by
  unfold insertAbsent
  by_cases h : x ∈ l
  · simp only [if_pos h]
    constructor
    · exact Or.inl
    · rintro (hy | rfl)
      · exact hy
      · exact h
  · simp [if_neg h]

/-- Set insertion preserves distinctness. -/
theorem nodup_insertAbsent {l : List Nat} {x : Nat} (h : l.Nodup) :
    (insertAbsent l x).Nodup := by
  unfold insertAbsent
  by_cases hx : x ∈ l
  · simpa [hx] using h
  · simp [hx, List.nodup_append, h]

/-- Membership in the fold of set insertions. -/
theorem mem_foldl_insertAbsent (l : List Nat) : ∀ (acc : List Nat) (y : Nat),
    (y ∈ l.foldl insertAbsent acc ↔ y ∈ acc ∨ y ∈ l) := by
  induction l with
  | nil => simp
  | cons a t ih =>
    intro acc y
    simp only [List.foldl_cons, ih, mem_insertAbsent, List.mem_cons]
    tauto

/-- The fold of set insertions preserves distinctness. -/
theorem nodup_foldl_insertAbsent (l : List Nat) : ∀ acc : List Nat, acc.Nodup →
    (l.foldl insertAbsent acc).Nodup := by
  induction l with
  | nil => exact fun _ h => h
  | cons a t ih =>
    intro acc h
    exact ih _ (nodup_insertAbsent h)

/-- The broadcast target set is the union of the three subscriber sets. -/
theorem mem_unionCallbacks {s : State} {vd : VertexData} {c : Nat} :
    c ∈ unionCallbacks s vd ↔
      c ∈ vd.callbacks ∨ c ∈ subsOf s.tsubs vd.traceable ∨ c ∈ subsOf s.csubs vd.cell := by
  unfold unionCallbacks
  simp [mem_foldl_insertAbsent, or_assoc]

/-- The broadcast target set holds each callback at most once. -/
theorem nodup_unionCallbacks (s : State) (vd : VertexData) :
    (unionCallbacks s vd).Nodup :=
  nodup_foldl_insertAbsent _ _ List.nodup_nil

/-- `TraceableVertex.undefine` emits no notification and clears every
field except identities and subscribers, bumping `touched`. -/
theorem undefine_spec {s : State} {vid : Nat} {vd : VertexData}
    (hv : getVertex s vid = some vd) :
    (undefine s vid).events = s.events ∧
    getVertex (undefine s vid) vid =
      some { vd with
               touched := some (s.clock + 1)
               dependency_keys := none
               evaluated := none
               last_known := .vnone
               overridden := none
               value := .vnone } := by
  constructor
  · unfold undefine
    rw [hv]
    simp [now, setVertex]
  · unfold undefine
    rw [hv]
    simpa [now] using getVertex_setVertex_self _ hv

/-- `TraceableVertex.override` stamps `touched = overridden` with one
fresh timestamp and then runs the assign protocol. -/
theorem overrideVertex_spec (s1 : State) (vid : Nat) (v : Val) (vd1 : VertexData)
    (hv1 : getVertex s1 vid = some vd1) :
    getVertex (overrideVertex s1 vid v) vid =
      some { vd1 with
               touched := some (s1.clock + 1)
               overridden := some (s1.clock + 1)
               value := v } ∧
    (pyEqB v vd1.value = true → (overrideVertex s1 vid v).events = s1.events) ∧
    (pyEqB v vd1.value = false →
      (overrideVertex s1 vid v).events =
        s1.events ++ assignEvents s1
          { vd1 with
              touched := some (s1.clock + 1)
              overridden := some (s1.clock + 1) } v) := by
  have hbump : getVertex { s1 with clock := s1.clock + 1 } vid = some vd1 := hv1
  have hset := getVertex_setVertex_self
    { vd1 with
        touched := some (s1.clock + 1)
        overridden := some (s1.clock + 1) } hbump
  obtain ⟨a1, a2, a3⟩ := assign_spec (s := setVertex { s1 with clock := s1.clock + 1 } vid
      { vd1 with
          touched := some (s1.clock + 1)
          overridden := some (s1.clock + 1) }) v hset
  refine ⟨?_, ?_, ?_⟩
  · unfold overrideVertex
    rw [hv1]
    simpa [now] using a1
  · intro hp
    unfold overrideVertex
    rw [hv1]
    simpa [now, setVertex] using a2 hp
  · intro hp
    unfold overrideVertex
    rw [hv1]
    simpa [now, setVertex, assignEvents, unionCallbacks, subsOf, cellNameOf,
      findCell] using a3 hp

/-- `TraceableVertex.override` touches only the heap, the clock and the
event log. -/
theorem overrideVertex_frame (s : State) (vid : Nat) (v : Val) :
    (overrideVertex s vid v).graphs = s.graphs ∧
    (overrideVertex s vid v).active_stack = s.active_stack := by
  unfold overrideVertex
  cases h : getVertex s vid with
  | none => exact ⟨rfl, rfl⟩
  | some vd =>
    have ha := assign_frame (setVertex { s with clock := s.clock + 1 } vid
      { vd with touched := some (s.clock + 1), overridden := some (s.clock + 1) }) vid v
    exact ⟨by simpa [now, setVertex] using ha.1, by simpa [now, setVertex] using ha.2.1⟩

/-- Unpacking `readyB`: an active graph exists and its evaluation stack
is empty. -/
theorem readyB_elim {s : State} (h : readyB s = true) :
    ∃ g gd, currentGraph s = some g ∧ getGraph s g = some gd ∧
      gd.evaluation_stack = [] := by
  unfold readyB at h
  cases hc : currentGraph s with
  | none => simp [hc] at h
  | some g =>
    simp only [hc] at h
    cases hgg : getGraph s g with
    | none => simp [hgg] at h
    | some gd =>
      simp only [hgg] at h
      exact ⟨g, gd, rfl, hgg, List.isEmpty_iff.mp h⟩

/-- With an empty evaluation stack, `Graph.override` succeeds and
preserves the active stack and the emptiness of the stack. -/
theorem graphOverride_ready {s : State} {g : Nat} {gd : GraphData} (instT : Nat)
    (cd : CellDef) (v : Val) (hg : getGraph s g = some gd)
    (he : gd.evaluation_stack = []) :
    (graphOverride s g instT cd v).1 = .ok () ∧
    currentGraph (graphOverride s g instT cd v).2 = currentGraph s ∧
    ∃ gd2, getGraph (graphOverride s g instT cd v).2 g = some gd2 ∧
      gd2.evaluation_stack = [] := by
  cases hl : lookupTable gd (instT, cd.cid) with
  | some vid =>
    have hres : traceable_vertex s g instT cd.cid .mset (instT, cd.cid) = (some vid, s) := by
      simp [traceable_vertex, hg, hl]
    have hgo : graphOverride s g instT cd v = (.ok (), overrideVertex s vid v) := by
      simp [graphOverride, hg, he, hres]
    have hf := overrideVertex_frame s vid v
    rw [hgo]
    refine ⟨rfl, by simp [currentGraph, hf.2], gd, ?_, he⟩
    simp only [getGraph] at hg ⊢
    rw [hf.1]
    exact hg
  | none =>
    have hres : traceable_vertex s g instT cd.cid .mset (instT, cd.cid) =
        (some s.heap.length, (createVertex s g instT cd.cid (instT, cd.cid)).2) := by
      simp [traceable_vertex, hg, hl, createVertex]
    have hgo : graphOverride s g instT cd v =
        (.ok (), overrideVertex (createVertex s g instT cd.cid (instT, cd.cid)).2
          s.heap.length v) := by
      simp [graphOverride, hg, he, hres]
    have hcv : (createVertex s g instT cd.cid (instT, cd.cid)).2 =
        setGraph { s with heap := s.heap ++ [{ traceable := instT, cell := cd.cid }] } g
          { gd with vertices := gd.vertices ++ [((instT, cd.cid), s.heap.length)] } := by
      simp [createVertex, hg]
    have hf := overrideVertex_frame (createVertex s g instT cd.cid (instT, cd.cid)).2
      s.heap.length v
    rw [hgo]
    constructor
    · rfl
    constructor
    · show currentGraph (overrideVertex (createVertex s g instT cd.cid (instT, cd.cid)).2
          s.heap.length v) = currentGraph s
      unfold currentGraph
      rw [hf.2, hcv]
      rfl
    · refine ⟨{ gd with vertices := gd.vertices ++ [((instT, cd.cid), s.heap.length)] },
        ?_, he⟩
      simp only [getGraph] at *
      rw [hf.1, hcv]
      exact getGraph_setGraph_self (s := { s with
        heap := s.heap ++ [{ traceable := instT, cell := cd.cid }] }) hg

/-- The keyword loop of `Traceable.__init__` applies every override whose
name matches a cell, regardless of sequence position, and fails with the
sorted unknown names exactly when one keyword matches no cell: the result
state equals the state of a construction from the matching keywords
alone. -/
theorem initLoop_split (tid : Nat) (cls : List (String × CellDef)) :
    ∀ (kw : List (String × Val)) (s : State) (missing : List String),
      readyB s = true →
      initLoop s tid cls kw missing =
        ((if missing ++ unknownNames cls kw = [] then .ok ()
          else .error (.definitionError (missingMsg (missing ++ unknownNames cls kw)))),
         (initLoop s tid cls (knownPairs cls kw) []).2) := by
  intro kw
  induction kw with
  | nil =>
    intro s missing _
    simp only [initLoop, unknownNames, knownPairs, List.filter_nil, List.map_nil,
      List.append_nil]
    split <;> rfl
  | cons p rest ih =>
    obtain ⟨k, v⟩ := p
    intro s missing hready
    cases hk : lookupAssoc cls k with
    | some cd =>
      obtain ⟨g, gd, hcur, hg, he⟩ := readyB_elim hready
      obtain ⟨hok, hcg, gd2, hg2, he2⟩ := graphOverride_ready tid cd v hg he
      cases hos : graphOverride s g tid cd v with
      | mk r s2 =>
        rw [hos] at hok hcg hg2
        have hr : r = .ok () := hok
        subst hr
        have hcur2 : currentGraph s2 = some g := hcg.trans hcur
        have hready2 : readyB s2 = true := by
          unfold readyB
          simp [hcur2, hg2, he2]
        have lhs_step : initLoop s tid cls ((k, v) :: rest) missing =
            initLoop s2 tid cls rest missing := by
          simp [initLoop, hk, hcur, hos]
        have hkp : knownPairs cls ((k, v) :: rest) = (k, v) :: knownPairs cls rest := by
          simp [knownPairs, hk]
        have rhs_step : (initLoop s tid cls (knownPairs cls ((k, v) :: rest)) []).2 =
            (initLoop s2 tid cls (knownPairs cls rest) []).2 := by
          rw [hkp]
          simp [initLoop, hk, hcur, hos]
        have hun : unknownNames cls ((k, v) :: rest) = unknownNames cls rest := by
          simp [unknownNames, hk]
        rw [lhs_step, ih s2 missing hready2, hun, rhs_step]
    | none =>
      have hun : unknownNames cls ((k, v) :: rest) = k :: unknownNames cls rest := by
        simp [unknownNames, hk]
      have hkp : knownPairs cls ((k, v) :: rest) = knownPairs cls rest := by
        simp [knownPairs, hk]
      have lhs_step : initLoop s tid cls ((k, v) :: rest) missing =
          initLoop s tid cls rest (missing ++ [k]) := by
        simp [initLoop, hk]
      rw [lhs_step, ih s (missing ++ [k]) hready, hun, hkp]
      simp

/-! ## Claim theorems -/

/-- C1 (code defect exhibited): scenario S6 as specified, including the
initial `Z() == 50` read in G1.  The pre-read materializes `Z`, `Y1`,
`Y2` on G1 (heap ids 1, 2, 3); the read of `Z` inside G2 then resolves to
those same parent vertices and re-evaluates them in place against G2's
`X = -8` override.  After G2 exits, `Z()` in G1 returns `-20`, not `50`,
and G1's vertex table is not what it was before G2 was entered (`Y1`
holds `-16`, `Y2` holds `-4`, `Z` holds `-20`).  Without the pre-read
(the shipped test `test_subgraph`) the scenario behaves as claimed:
`-20` inside G2, `50` after exit, and G1's table identical to its state
before G2 was entered. -/
theorem s6_nested_graph_divergence :
    c1pre.1 = .ok (.vint 50) ∧
    c1mid.1 = .ok (.vint (-20)) ∧
    c1post.1 = .ok (.vint (-20)) ∧
    c1post.1 ≠ .ok (.vint 50) ∧
    graphTableView c1s6 0 ≠ graphTableView c1pre.2 0 ∧
    (getVertex c1s6 2).map VertexData.value = some (.vint (-16)) ∧
    (getVertex c1s6 3).map VertexData.value = some (.vint (-4)) ∧
    (getVertex c1s6 1).map VertexData.value = some (.vint (-20)) ∧
    a1mid.1 = .ok (.vint (-20)) ∧
    a1post.1 = .ok (.vint 50) ∧
    graphTableView a1s5 0 = graphTableView c1s2 0 :=
  ⟨rfl, rfl, rfl, by decide, by decide, rfl, rfl, rfl, rfl, rfl, rfl⟩

/-- C2 (counterexample): a user exception during evaluation does not
leave the vertex undefined.  After `B`'s re-evaluation raises,
`B`'s vertex keeps `evaluated = some 2`, `dependency_keys
= some [(2, 7)]` (the dependency on `A` registered before the raise),
and `value = 1` — none of them cleared as the claim requires. -/
theorem exception_not_undefined_counterexample :
    c2r2.1 = .error (.userError "boom") ∧
    getVertex c2r2.2 c2vidB =
      some ⟨2, 8, some [(2, 7)], some 2, .vint 1, none, some 6, .vint 1, []⟩ ∧
    (getVertex c2r2.2 c2vidB).map VertexData.evaluated ≠ some none ∧
    (getVertex c2r2.2 c2vidB).map VertexData.dependency_keys ≠ some none ∧
    (getVertex c2r2.2 c2vidB).map VertexData.value ≠ some .vnone :=
  ⟨rfl, rfl, by decide, by decide, by decide⟩

/-- C2 (amended): only the `LoopException` path undefines a vertex (the
re-entered one, via `push_vertex`); a user exception from the expression
leaves `evaluated`, `overridden`, `last_known` and `value` unchanged,
bumps `touched`, and leaves `dependency_keys` holding exactly the
dependencies registered before the raise.  A subsequent read re-attempts
the evaluation when the vertex is dirty against those dependencies, as
here (`c2r3` raises again). -/
theorem exception_teardown_amended :
    getVertex c2r1.2 c2vidB =
      some ⟨2, 8, some [(2, 7)], some 2, .vint 1, none, some 2, .vint 1, []⟩ ∧
    c2r2.1 = .error (.userError "boom") ∧
    getVertex c2r2.2 c2vidB =
      some ⟨2, 8, some [(2, 7)], some 2, .vint 1, none, some 6, .vint 1, []⟩ ∧
    c2r3.1 = .error (.userError "boom") ∧
    c9first.1 = .error .loopException ∧
    getVertex c9first.2 0 = some ⟨1, 4, none, none, .vnone, none, some 6, .vnone, []⟩ :=
  ⟨rfl, rfl, rfl, rfl, rfl, rfl⟩

/-- C3: the dirty test.  `V` is dirty iff `V` is not overridden and
(`V` has never been evaluated, or some dependency key of `V` resolves in
trace mode to no vertex or to a vertex that is newer than `V`); a vertex
`W` is newer than `V` iff `W` is itself dirty or `V`'s `defined`
timestamp (`overridden` if present, else `evaluated`) is strictly less
than `W.touched`.  Stated at explicit recursion depths (each level of
`is_dirty` consults `is_newer` two levels down, through
`vertex_stale`). -/
theorem dirty_test_characterization {s : State} {vid : Nat} {vd : VertexData} {g : Nat}
    (fuel : Nat) (hv : getVertex s vid = some vd) (hg : currentGraph s = some g) :
    (is_dirty s vid (fuel + 2) = true ↔
      vd.overridden = none ∧
        (vd.evaluated = none ∨
          ∃ k ∈ vd.dependency_keys.getD [],
            graphTrace s g k = none ∨
              ∃ wid, graphTrace s g k = some wid ∧ is_newer s wid vid fuel = true)) ∧
    (∀ wid wd, getVertex s wid = some wd →
      (is_newer s wid vid (fuel + 1) = true ↔
        (is_dirty s wid fuel = true ∨ optLt (defined vd) wd.touched = true))) := by
  constructor
  · cases hdep : vd.dependency_keys with
    | none =>
      simp [is_dirty, dirtyFns, dirtyStep, hv, hg, hdep, Option.isNone_iff_eq_none]
    | some ks =>
      simp only [is_dirty, dirtyFns, dirtyStep, hv, hg, hdep, Option.isNone_iff_eq_none,
        List.any_eq_true, is_newer, Bool.and_eq_true, Bool.or_eq_true, Option.getD_some]
      apply and_congr Iff.rfl
      apply or_congr Iff.rfl
      constructor
      · rintro ⟨k, hmem, hmatch⟩
        refine ⟨k, hmem, ?_⟩
        revert hmatch
        cases htr : graphTrace s g k with
        | none => exact fun _ => Or.inl rfl
        | some w => exact fun hn => Or.inr ⟨w, rfl, hn⟩
      · rintro ⟨k, hmem, hdisj⟩
        refine ⟨k, hmem, ?_⟩
        cases htr : graphTrace s g k with
        | none => rfl
        | some w =>
          rcases hdisj with h | ⟨wid, hw, hn⟩
          · rw [htr] at h
            cases h
          · rw [htr] at hw
            cases hw
            exact hn
  · intro wid wd hw
    simp [is_newer, dirtyFns, dirtyStep, hw, hv, is_dirty]

/-- Witness for C3: in `w3state`, vertex `0` (evaluated at time 2, with a
dependency overridden at time 3) is dirty. -/
theorem dirty_test_witness : is_dirty w3state 0 3 = true := by
  have h := (@dirty_test_characterization w3state 0
      ⟨2, 8, some [(2, 7)], some 2, .vint 1, none, some 2, .vint 1, []⟩
      0 1 rfl rfl).1
  exact h.mpr ⟨rfl, Or.inr ⟨(2, 7), by decide, Or.inr ⟨1, rfl, by decide⟩⟩⟩

/-- C4: `Graph.traceable_vertex` resolution.  A hit in the current
graph's table is returned unchanged in every mode.  With no hit: `set`
creates a fresh undefined vertex on the current graph (heap appended,
only this graph's table extended — no ancestor vertex is returned or
mutated); `get` returns the nearest ancestor's vertex, creating a fresh
undefined vertex on the current graph only when no ancestor has one;
`del` creates a fresh vertex on the current graph exactly when the
nearest ancestor hit is an override, otherwise returns the ancestor's
vertex (or nothing, when no ancestor has one); `trace` never creates. -/
theorem resolution_modes (s : State) (g : Nat) (gd : GraphData) (t c : Nat)
    (hg : getGraph s g = some gd) :
    (∀ vid, lookupTable gd (t, c) = some vid →
      ∀ mode, traceable_vertex s g t c mode (t, c) = (some vid, s)) ∧
    (lookupTable gd (t, c) = none →
      (traceable_vertex s g t c .mset (t, c) = createVertex s g t c (t, c) ∧
       createVertex s g t c (t, c) =
         (some s.heap.length,
          setGraph { s with heap := s.heap ++ [{ traceable := t, cell := c }] } g
            { gd with vertices := gd.vertices ++ [((t, c), s.heap.length)] }) ∧
       getVertex (createVertex s g t c (t, c)).2 s.heap.length =
         some { traceable := t, cell := c }) ∧
      ((findAncestorVertex s gd.parent (t, c) s.graphs.length = none →
         traceable_vertex s g t c .mget (t, c) = createVertex s g t c (t, c) ∧
         traceable_vertex s g t c .mdel (t, c) = (none, s) ∧
         traceable_vertex s g t c .mtrace (t, c) = (none, s)) ∧
       (∀ avid, findAncestorVertex s gd.parent (t, c) s.graphs.length = some avid →
         traceable_vertex s g t c .mget (t, c) = (some avid, s) ∧
         traceable_vertex s g t c .mtrace (t, c) = (some avid, s) ∧
         (is_overrideV s avid = true →
           traceable_vertex s g t c .mdel (t, c) = createVertex s g t c (t, c)) ∧
         (is_overrideV s avid = false →
           traceable_vertex s g t c .mdel (t, c) = (some avid, s))))) := by
  refine ⟨?_, fun hnone => ⟨⟨?_, ?_, ?_⟩, ?_, ?_⟩⟩
  · intro vid hvid mode
    simp [traceable_vertex, hg, hvid]
  · simp [traceable_vertex, hg, hnone]
  · simp [createVertex, hg]
  · simp [createVertex, hg, getVertex, setGraph]
  · intro hanc
    refine ⟨?_, ?_, ?_⟩ <;> simp [traceable_vertex, hg, hnone, hanc]
  · intro avid hanc
    refine ⟨?_, ?_, ?_, ?_⟩
    · simp [traceable_vertex, hg, hnone, hanc]
    · simp [traceable_vertex, hg, hnone, hanc]
    · intro hov
      simp [traceable_vertex, hg, hnone, hanc, hov]
    · intro hov
      simp [traceable_vertex, hg, hnone, hanc, hov]

/-- Witness for C4: in `w4state` (current graph 1 empty, parent graph 0
holding an overridden vertex for key `(2, 7)`), `get` returns the
parent's vertex and `del` creates a fresh shadowing vertex on graph 1. -/
theorem resolution_modes_witness :
    traceable_vertex w4state 1 2 7 .mget (2, 7) = (some 0, w4state) ∧
    traceable_vertex w4state 1 2 7 .mdel (2, 7) = createVertex w4state 1 2 7 (2, 7) := by
  have h := resolution_modes w4state 1 ⟨some 0, [], []⟩ 2 7 rfl
  have h3 := (h.2 rfl).2.2 0 rfl
  exact ⟨h3.1, h3.2.2.1 rfl⟩

/-- C5 (counterexample): the stored value for a cell returning a callable
is a `TraceableClosure` carrying the graph that was current at
*evaluation* time, not the graph current at *invocation* time.  Here the
wrapper was created under graph 0; invoked while nested graph 1 is the
current (innermost active) graph, `wrap` pushes onto graph 0's stack, the
in-call read of `G` resolves and evaluates on graph 1 with an empty
stack, and no dependency is attributed to the owning vertex `F`
(`dependency_keys` stays `none`), contrary to the claim. -/
theorem closure_wrapper_counterexample :
    c5wrapper = .vwrapped 0 0 (.vclosure 3 (.readCell 9)) ∧
    currentGraph c5nested = some 1 ∧
    c5invokeNested.1 = .ok (.vint 5) ∧
    (getGraph c5invokeNested.2 1).map (fun gd => gd.vertices.map Prod.fst) =
      some [(3, 9)] ∧
    (getVertex c5invokeNested.2 0).map VertexData.dependency_keys = some none :=
  ⟨rfl, rfl, rfl, rfl, rfl⟩

/-- C5 (amended): the wrapper stores the graph current at wrapper
creation together with the owning vertex, and on invocation pushes that
vertex onto *that stored graph's* evaluation stack for the duration of
the call, popping on exit.  When the stored graph is the current graph at
invocation (the ordinary case), reads inside the call are attributed as
dependencies of the owning vertex: invoking `F`'s wrapper under graph 0
records `G`'s key in `F.dependency_keys`, and the stack is empty again
after the call. -/
theorem closure_wrapper_amended :
    c5read.1 = .ok (.vwrapped 0 0 (.vclosure 3 (.readCell 9))) ∧
    currentGraph c5read.2 = some 0 ∧
    c5invokeSame.1 = .ok (.vint 5) ∧
    (getVertex c5invokeSame.2 0).map VertexData.dependency_keys = some (some [(3, 9)]) ∧
    (getGraph c5invokeSame.2 0).map GraphData.evaluation_stack = some [] :=
  ⟨rfl, rfl, rfl, rfl, rfl⟩

/-- C6 (counterexample): `remove_override` replaces the observable value
by a non-equal value (`'xyz'` back to `last_known = 'abc'`) with a live
subscriber (callback 100) and broadcasts nothing: the event log is
unchanged (still the two notifications from the evaluation and the
override), refuting "every operation that changes the value notifies iff
old and new values differ". -/
theorem remove_override_no_notify_counterexample :
    (getVertex c6s2 0).map VertexData.value = some (.vstr "xyz") ∧
    (getVertex c6s3 0).map VertexData.value = some (.vstr "abc") ∧
    pyEqB (.vstr "abc") (.vstr "xyz") = false ∧
    (getVertex c6s3 0).map VertexData.callbacks = some [100] ∧
    c6s3.events = c6s2.events ∧
    c6s2.events.length = 2 :=
  ⟨rfl, rfl, rfl, rfl, rfl, rfl⟩

/-- C6 (amended): notifications are issued only by the assign protocol
(used by evaluation and override), and there exactly when the new value
differs by value equality; `remove_override` restores
`value := last_known` and `undefine` clears the value, both silently even
when the value changes. -/
theorem notify_on_assign_only {s : State} {vid : Nat} {vd : VertexData} (n : Val)
    (hv : getVertex s vid = some vd) :
    (remove_overrideVertex s vid).events = s.events ∧
    (vd.overridden ≠ none →
      getVertex (remove_overrideVertex s vid) vid =
        some { vd with
                 touched := some (s.clock + 1)
                 overridden := none
                 value := vd.last_known }) ∧
    (undefine s vid).events = s.events ∧
    getVertex (undefine s vid) vid =
      some { vd with
               touched := some (s.clock + 1)
               dependency_keys := none
               evaluated := none
               last_known := .vnone
               overridden := none
               value := .vnone } ∧
    (pyEqB n vd.value = true → (assign s vid n).events = s.events) ∧
    (pyEqB n vd.value = false →
      (assign s vid n).events = s.events ++ assignEvents s vd n) := by
  obtain ⟨h1, h2, h3⟩ := assign_spec n hv
  refine ⟨?_, ?_, (undefine_spec hv).1, (undefine_spec hv).2, h2, h3⟩
  · unfold remove_overrideVertex
    rw [hv]
    cases ho : vd.overridden with
    | none => simp [ho]
    | some t => simp [ho, now, setVertex]
  · intro hov
    unfold remove_overrideVertex
    rw [hv]
    cases ho : vd.overridden with
    | none => exact absurd ho hov
    | some t => simpa [ho, now] using getVertex_setVertex_self _ hv

/-- Witness for the amended C6: removing the override on `S`'s vertex in
the concrete `c6s2` state restores `'abc'` without emitting an event. -/
theorem notify_on_assign_only_witness :
    (remove_overrideVertex c6s2 0).events = c6s2.events ∧
    (getVertex (remove_overrideVertex c6s2 0) 0).map VertexData.value =
      some (.vstr "abc") := by
  have h := @notify_on_assign_only c6s2 0
      ⟨4, 11, none, some 1, .vstr "abc", some 2, some 2, .vstr "xyz", [100]⟩
      (.vstr "q") rfl
  refine ⟨h.1, ?_⟩
  rw [h.2.1 (by decide)]
  rfl

/-- C7: the assign protocol.  The old value is captured, the vertex's
value is set to the new value (so the new value is already stored in the
state in which the notification batch is computed and appended), and iff
the new value differs by value equality, exactly one notification
`(traceable, cell-name-or-absent, new, old)` is delivered to each
distinct callback in the union of the subscribers of the vertex, of its
traceable and of its cell — the target list is duplicate-free, so a
callback subscribed to several notifiers fires once per broadcast. -/
theorem assign_protocol {s : State} {vid : Nat} {vd : VertexData} (n : Val)
    (hv : getVertex s vid = some vd) :
    getVertex (assign s vid n) vid = some { vd with value := n } ∧
    (pyEqB n vd.value = true → (assign s vid n).events = s.events) ∧
    (pyEqB n vd.value = false →
      (assign s vid n).events = s.events ++ assignEvents s vd n ∧
      (assignEvents s vd n).map NotifyEvent.cb = unionCallbacks s vd ∧
      (unionCallbacks s vd).Nodup ∧
      (∀ c, c ∈ unionCallbacks s vd ↔
        c ∈ vd.callbacks ∨ c ∈ subsOf s.tsubs vd.traceable ∨ c ∈ subsOf s.csubs vd.cell) ∧
      (∀ e ∈ assignEvents s vd n,
        e.inst = vd.traceable ∧ e.attr = cellNameOf s vd.cell ∧ e.newV = n ∧
          e.oldV = vd.value)) := by
  obtain ⟨h1, h2, h3⟩ := assign_spec n hv
  refine ⟨h1, h2, fun hp =>
    ⟨h3 hp, ?_, nodup_unionCallbacks s vd, fun c => mem_unionCallbacks, ?_⟩⟩
  · have hco : (NotifyEvent.cb ∘ fun c : Nat =>
        ({ cb := c, inst := vd.traceable, attr := cellNameOf s vd.cell, newV := n,
           oldV := vd.value } : NotifyEvent)) = id := by
      funext c
      rfl
    simp [assignEvents, List.map_map, hco]
  · intro e he
    simp only [assignEvents, List.mem_map] at he
    obtain ⟨c, _, rfl⟩ := he
    exact ⟨rfl, rfl, rfl, rfl⟩

/-- Witness for C7: assigning `'zz'` in `w7state` (vertex subscribers
100, 101; traceable subscriber 100; cell subscriber 102) notifies each of
100, 101, 102 exactly once with payload `(4, none, 'zz', 'abc')`, and the
stored value is already `'zz'`. -/
theorem assign_protocol_witness :
    (assign w7state 0 (.vstr "zz")).events =
      [⟨100, 4, none, .vstr "zz", .vstr "abc"⟩, ⟨101, 4, none, .vstr "zz", .vstr "abc"⟩,
       ⟨102, 4, none, .vstr "zz", .vstr "abc"⟩] ∧
    (getVertex (assign w7state 0 (.vstr "zz")) 0).map VertexData.value =
      some (.vstr "zz") := by
  have h := @assign_protocol w7state 0
      ⟨4, 11, none, some 1, .vstr "abc", none, some 1, .vstr "abc", [100, 101]⟩
      (.vstr "zz") rfl
  constructor
  · rw [(h.2.2 rfl).1]
    rfl
  · rw [h.1]
    rfl

/-- C8: `Graph.override` succeeds iff this graph's evaluation stack is
empty.  With a non-empty stack it returns `DependencyException` with the
state — in particular every vertex table and the heap — completely
unchanged.  With an empty stack it materializes the target vertex in
`set` mode, stamps `overridden` and `touched` with the same fresh
timestamp, stores the value, and notifies (via the assign protocol) iff
the value changed. -/
theorem override_protocol (s : State) (g : Nat) (gd : GraphData) (instT : Nat)
    (cd : CellDef) (v : Val) (hg : getGraph s g = some gd) :
    (gd.evaluation_stack ≠ [] → graphOverride s g instT cd v = (.error .dependencyException, s)) ∧
    (gd.evaluation_stack = [] →
      ∃ vid s1, traceable_vertex s g instT cd.cid .mset (instT, cd.cid) = (some vid, s1) ∧
        graphOverride s g instT cd v = (.ok (), overrideVertex s1 vid v) ∧
        (∀ vd1, getVertex s1 vid = some vd1 →
          getVertex (overrideVertex s1 vid v) vid =
            some { vd1 with
                     touched := some (s1.clock + 1)
                     overridden := some (s1.clock + 1)
                     value := v } ∧
          (pyEqB v vd1.value = true → (overrideVertex s1 vid v).events = s1.events) ∧
          (pyEqB v vd1.value = false →
            (overrideVertex s1 vid v).events =
              s1.events ++ assignEvents s1
                { vd1 with
                    touched := some (s1.clock + 1)
                    overridden := some (s1.clock + 1) } v))) := by
  constructor
  · intro hne
    cases hstack : gd.evaluation_stack with
    | nil => exact absurd hstack hne
    | cons a r => simp [graphOverride, hg, hstack]
  · intro hempty
    have key : ∀ vid s1,
        traceable_vertex s g instT cd.cid .mset (instT, cd.cid) = (some vid, s1) →
        graphOverride s g instT cd v = (.ok (), overrideVertex s1 vid v) := by
      intro vid s1 hres
      simp [graphOverride, hg, hempty, hres]
    cases hl : lookupTable gd (instT, cd.cid) with
    | some vid =>
      have hres : traceable_vertex s g instT cd.cid .mset (instT, cd.cid) = (some vid, s) := by
        simp [traceable_vertex, hg, hl]
      exact ⟨vid, s, hres, key _ _ hres, fun vd1 hv1 => overrideVertex_spec s vid v vd1 hv1⟩
    | none =>
      have hres : traceable_vertex s g instT cd.cid .mset (instT, cd.cid) =
          (some s.heap.length, (createVertex s g instT cd.cid (instT, cd.cid)).2) := by
        simp [traceable_vertex, hg, hl, createVertex]
      exact ⟨_, _, hres, key _ _ hres, fun vd1 hv1 => overrideVertex_spec _ _ v vd1 hv1⟩

/-- Witness for C8: in `w8state`, whose current graph is evaluating
vertex 0, overriding `S` fails with `DependencyException` and the state
is unchanged. -/
theorem override_protocol_witness :
    graphOverride w8state 0 4 cellS (.vstr "x") = (.error .dependencyException, w8state) := by
  have h := override_protocol w8state 0 ⟨none, [0], [((4, 12), 0)]⟩ 4 cellS (.vstr "x") rfl
  exact h.1 (by decide)

/-- C9: evaluating a vertex already on the current graph's evaluation
stack (same identity) undefines that vertex and raises `LoopException`
(general fact about `push_vertex`), and in the three-cell cycle scenario
S4 the first read of `First`, and likewise of `Third`, raises
`LoopException`, while after overriding `First = 17` the remaining chain
evaluates normally (`Third() = 22`, `Second() = 12`). -/
theorem loop_detection (s : State) (g : Nat) (gd : GraphData) (vid : Nat) (vd : VertexData)
    (hg : getGraph s g = some gd) (hmem : vid ∈ gd.evaluation_stack)
    (hv : getVertex s vid = some vd) :
    push_vertex s g vid = (.error .loopException, undefine s vid) ∧
    getVertex (undefine s vid) vid =
      some { vd with
               touched := some (s.clock + 1)
               dependency_keys := none
               evaluated := none
               last_known := .vnone
               overridden := none
               value := .vnone } ∧
    c9first.1 = .error .loopException ∧
    c9third.1 = .error .loopException ∧
    c9broken.1 = .ok (.vint 22) ∧
    c9broken2.1 = .ok (.vint 12) := by
  refine ⟨?_, (undefine_spec hv).2, rfl, rfl, rfl, rfl⟩
  cases hstack : gd.evaluation_stack with
  | nil =>
    rw [hstack] at hmem
    cases hmem
  | cons a r =>
    have hmem2 : vid ∈ a :: r := hstack ▸ hmem
    simp [push_vertex, hg, hstack, hmem2]

/-- Witness for C9: pushing vertex 0 onto `w9state`'s graph, whose stack
already holds vertex 0, undefines it and fails with `LoopException`. -/
theorem loop_detection_witness :
    push_vertex w9state 0 0 = (.error .loopException, undefine w9state 0) := by
  have h := loop_detection w9state 0 ⟨none, [0], [((1, 4), 0)]⟩ 0
      ⟨1, 4, some [(1, 6)], none, .vnone, none, some 2, .vnone, []⟩ rfl (by decide) rfl
  exact h.1

/-- C10: constructing a traceable with keyword overrides applies every
override whose name denotes a cell of the class — even those after an
unknown name — and then raises `DefinitionError` naming the sorted
unknown attributes exactly when there is one; the resulting state equals
the state of a construction from the matching keywords alone (so a
failed construction leaves the applied overrides in the graph's vertex
table). -/
theorem init_mixed_overrides (s : State) (tid : Nat) (cls : List (String × CellDef))
    (kw : List (String × Val)) (hready : readyB s = true) :
    traceableInit s tid cls kw =
      ((if unknownNames cls kw = [] then .ok ()
        else .error (.definitionError (missingMsg (unknownNames cls kw)))),
       (traceableInit s tid cls (knownPairs cls kw)).2) := by
  obtain ⟨g, gd, hcur, hg, he⟩ := readyB_elim hready
  unfold traceableInit
  rw [hcur]
  simpa using initLoop_split tid cls kw s [] hready

/-- Witness for C10: `Diamond(Z1 = 50, Y3 = 10, X = 30)` raises
`DefinitionError` naming `Y3, Z1` (sorted, though `Z1` was passed first)
and still leaves `X`'s vertex created and overridden to `30` on the
current graph. -/
theorem init_mixed_overrides_witness :
    c10run = (.error (.definitionError "Attribute(s) Y3, Z1 not found"),
              (traceableInit c10s1 0 diamondCls [("X", .vint 30)]).2) ∧
    (getVertex c10run.2 0).map VertexData.value = some (.vint 30) ∧
    (getVertex c10run.2 0).map VertexData.overridden = some (some 1) := by
  have h := init_mixed_overrides c10s1 0 diamondCls
      [("Z1", .vint 50), ("Y3", .vint 10), ("X", .vint 30)] rfl
  exact ⟨h.trans (by rfl), rfl, rfl⟩

end Traced
